import Mathlib

/-!
Shallow embedding of the EmailFileBackup-Cron mail-processing core
(src/mail_processor.py, src/database.py, src/config.py) and proofs of the
frozen claims about it.

External effects are abstracted as explicit inputs: the IMAP mailbox is a
list of messages, the WebDAV network is a pair of oracles (`head` for HEAD
probes, `putOk` for PUT transfers, both keyed by the request URL), and the
database tables are plain values (a list of server rows, an optional lock
row).  Log output to the application logger is not modelled, except for the
selector warnings that claim C5 talks about, which are returned explicitly.
-/

namespace MailBridge

/-! ## Filename handling (src/mail_processor.py) -/

/-- Left-to-right removal of every `..` occurrence, exactly as Python's
`filename.replace('..', '')` in `sanitize_filename` (mail_processor.py:291):
scan left to right, drop each non-overlapping `..`, continue after it. -/
def stripDotDot : List Char → List Char
  | '.' :: '.' :: rest => stripDotDot rest
  | c :: rest => c :: stripDotDot rest
  | [] => []

/-- Membership in the character class of `re.sub(r'[<>:"/\\|?*]', '_', ...)`
(mail_processor.py:292). -/
def isForbiddenChar (c : Char) : Bool :=
  c = '<' || c = '>' || c = ':' || c = '"' || c = '/' || c = '\\' ||
  c = '|' || c = '?' || c = '*'

/-- Embedding of `sanitize_filename` (mail_processor.py:290-292): strip `..`
substrings, then replace each forbidden character by an underscore. -/
def sanitize_filename (s : String) : String :=
  String.mk ((stripDotDot s.data).map (fun c => if isForbiddenChar c then '_' else c))

/-- Embedding of Python's `url.rstrip('/')`: drop trailing slashes. -/
def rstripSlash (s : String) : String :=
  String.mk (s.data.reverse.dropWhile (fun c => c = '/')).reverse

/-- URL built by `f"{url.rstrip('/')}/{filename}"` (mail_processor.py:203
and mail_processor.py:261). -/
def buildUrl (base name : String) : String :=
  rstripSlash base ++ "/" ++ name

/-- Embedding of `os.path.splitext` as used on the sanitized, path-free
filenames of `find_unique_filename` (mail_processor.py:280): the extension
starts at the last dot, provided some non-dot character of the name comes
before it (so leading dots never open an extension). -/
def splitext (s : String) : String × String :=
  let cs := s.data
  let lead := cs.takeWhile (fun c => c = '.')
  let rest := cs.dropWhile (fun c => c = '.')
  let rrev := rest.reverse
  let pre := rrev.takeWhile (fun c => c ≠ '.')
  match rrev.dropWhile (fun c => c ≠ '.') with
  | [] => (s, "")
  | _ :: beforeRev => (String.mk (lead ++ beforeRev.reverse), String.mk ('.' :: pre.reverse))

/-! ## Server rows and target selection (src/database.py, src/mail_processor.py) -/

/-- One row of the `webdav_servers` table (database.py:377-391); the same
shape also stands for one entry of the statically configured
`config['webdav_servers']` list (config.py:214-243). -/
structure ServerRow where
  id : Nat
  name : String
  url : String
  login : String
  password : String
  enabled : Bool
  priority : Int
deriving DecidableEq

/-- Boolean comparison realising the SQL `ORDER BY priority ASC, id ASC` of
`get_enabled_servers` (database.py:793). -/
def serverLE (a b : ServerRow) : Bool :=
  decide (a.priority < b.priority ∨ (a.priority = b.priority ∧ a.id ≤ b.id))

/-- Embedding of `get_enabled_servers` (database.py:786-803): the rows of the
`webdav_servers` table with `enabled = TRUE`, ordered by
(priority ascending, id ascending). -/
def get_enabled_servers (table : List ServerRow) : List ServerRow :=
  (table.filter (fun s => s.enabled)).insertionSort (fun a b => serverLE a b = true)

/-- The default-server search of `upload_to_webdav` (mail_processor.py:187-195):
`get_config_value('default_webdav_server')` may be absent (`none`) or empty,
both falsy in `if default_server_name:`; otherwise the first server whose
`name` equals it is taken. -/
def find_default (servers : List ServerRow) (defaultName : Option String) : Option ServerRow :=
  match defaultName with
  | none => none
  | some n => if n = "" then none else servers.find? (fun s => s.name == n)

/-- Warnings the selector emits, modelling the three logger calls of
`upload_to_webdav` (mail_processor.py:181, 184, 200). -/
inductive SelWarning where
  | noServers
  | fallbackToStatic
  | noDefaultMatched
deriving DecidableEq

/-- Selection within a fixed non-fallback list: take the default-named server
if found, else the first one with a warning (mail_processor.py:190-200). -/
def selectFrom (servers : List ServerRow) (warns : List SelWarning)
    (defaultName : Option String) : Option ServerRow × List SelWarning :=
  match find_default servers defaultName with
  | some s => (some s, warns)
  | none =>
    match servers with
    | [] => (none, warns)
    | s :: _ => (some s, warns ++ [SelWarning.noDefaultMatched])

/-- Target-selection logic of `upload_to_webdav` (mail_processor.py:176-200):
`db` is the result of `get_enabled_servers()`, `static` is
`config['webdav_servers']`.  If `db` is empty, fall back to `static` with a
warning; if that is empty too, fail hard; then search for the default name
and otherwise take the first server. -/
def select_target (db static : List ServerRow) (defaultName : Option String) :
    Option ServerRow × List SelWarning :=
  match db with
  | [] =>
    match static with
    | [] => (none, [SelWarning.noServers])
    | s :: rest => selectFrom (s :: rest) [SelWarning.fallbackToStatic] defaultName
  | d :: rest => selectFrom (d :: rest) [] defaultName

/-! ## Upload (src/mail_processor.py upload_to_webdav, src/database.py log_upload) -/

/-- Upload outcome recorded in the `status` column of `upload_logs`. -/
inductive UploadStatus where
  | success
  | failed
deriving DecidableEq

/-- One row appended to `upload_logs` by `log_upload` (database.py:603-625). -/
structure LogEntry where
  filename : String
  size : Nat
  status : UploadStatus
  server_name : Option String
deriving DecidableEq

/-- Result of one `upload_to_webdav` call: the returned boolean, the
`upload_logs` rows appended during the call, and the URLs actually given to
`requests.put` (so that "no transfer was attempted" is expressible). -/
structure UploadResult where
  ok : Bool
  logs : List LogEntry
  putCalls : List String
deriving DecidableEq

/-- Embedding of `upload_to_webdav` (mail_processor.py:121-227).  `putOk url`
tells whether the PUT to `url` succeeds (i.e. neither `requests.put` nor
`raise_for_status` raises a `RequestException`).  When no target at all is
configured the function returns `False` before any PUT and before any
`log_upload` call (mail_processor.py:179-182); otherwise exactly one log row
is written, carrying the selected server's name (mail_processor.py:222,226). -/
def upload_to_webdav (db static : List ServerRow) (defaultName : Option String)
    (putOk : String → Bool) (remote_filename : String) (file_size : Nat) : UploadResult :=
  match (select_target db static defaultName).1 with
  | none => ⟨false, [], []⟩
  | some cfg =>
    let url := buildUrl cfg.url remote_filename
    if putOk url then
      ⟨true, [⟨remote_filename, file_size, UploadStatus.success, some cfg.name⟩], [url]⟩
    else
      ⟨false, [⟨remote_filename, file_size, UploadStatus.failed, some cfg.name⟩], [url]⟩

/-! ## Existence probe and unique-name search (src/mail_processor.py) -/

/-- Outcome of one `requests.head` call: an HTTP status code, or a raised
`RequestException` (transport error). -/
inductive HeadResult where
  | status (code : Nat)
  | transportError
deriving DecidableEq

/-- Python exceptions that escape the embedded fragments. -/
inductive PyErr where
  | indexError
deriving DecidableEq

/-- Embedding of `webdav_file_exists` (mail_processor.py:249-268).  The
caller passes the whole config, and the function extracts
`config['webdav_servers'][0]` (mail_processor.py:255-256) — so the probe is
always aimed at the first entry of the *static* environment-configured list
(`static` here), and the database-persisted targets never reach it.  An empty
static list makes the `[0]` indexing raise `IndexError`, which is outside the
`try` and therefore not caught.  A `RequestException` during the HEAD is
caught and reported as "does not exist"; otherwise the file exists iff the
status code is exactly 200. -/
def webdav_file_exists (static : List ServerRow) (head : String → HeadResult)
    (filename : String) : Except PyErr Bool :=
  match static with
  | [] => Except.error PyErr.indexError
  | s :: _ =>
    match head (buildUrl s.url filename) with
    | HeadResult.status code => Except.ok (code == 200)
    | HeadResult.transportError => Except.ok false

/-- Candidate name `f"{name} ({counter}){extension}"` (mail_processor.py:283). -/
def candidateName (name ext : String) (counter : Nat) : String :=
  name ++ " (" ++ toString counter ++ ")" ++ ext

/-- The `while True` search of `find_unique_filename`
(mail_processor.py:281-287), with explicit fuel: `Except.ok none` models the
loop still running after `fuel` probes (the source loop has no bound). -/
def find_unique_aux (static : List ServerRow) (head : String → HeadResult)
    (name ext : String) : Nat → Nat → Except PyErr (Option String)
  | _, 0 => Except.ok none
  | counter, fuel + 1 =>
    match webdav_file_exists static head (candidateName name ext counter) with
    | Except.error e => Except.error e
    | Except.ok true => find_unique_aux static head name ext (counter + 1) fuel
    | Except.ok false => Except.ok (some (candidateName name ext counter))

/-- Embedding of `find_unique_filename` (mail_processor.py:271-287): if the
original name is not reported present, use it as-is; otherwise try
`name (1).ext`, `name (2).ext`, ... until one is free. -/
def find_unique_filename (static : List ServerRow) (head : String → HeadResult)
    (original : String) (fuel : Nat) : Except PyErr (Option String) :=
  match webdav_file_exists static head original with
  | Except.error e => Except.error e
  | Except.ok false => Except.ok (some original)
  | Except.ok true =>
    let p := splitext original
    find_unique_aux static head p.1 p.2 1 fuel

/-! ## Per-message processing (src/mail_processor.py _process_single_message) -/

/-- One attachment of a mailbox message.  `name` is the output of
`decode_email_header` on its raw filename header, and `decodeRaises` records
whether that decoding (or the size measurement) raises instead; `size` is the
measured content size in bytes. -/
structure Attachment where
  decodeRaises : Bool
  name : String
  size : Nat
deriving DecidableEq

/-- Environment of one processing run: the static config server list, the
database-backed enabled-server list and default name, the two network
oracles, the `MAX_ATTACHMENT_SIZE` limit (config.py:123) and probe fuel. -/
structure PEnv where
  static : List ServerRow
  db : List ServerRow
  defaultName : Option String
  head : String → HeadResult
  putOk : String → Bool
  maxSize : Nat
  fuel : Nat

/-- Result of `_process_single_message`: the returned verdict
(`all_attachments_succeeded`), the remote filenames for which
`upload_to_webdav` was invoked, and all `upload_logs` rows appended. -/
structure MsgResult where
  verdict : Bool
  uploadsAttempted : List String
  logs : List LogEntry
deriving DecidableEq

/-- The attachment loop of `_process_single_message`
(mail_processor.py:349-390), with the accumulated upload attempts and log
rows passed along.  Per attachment: decode (an exception breaks the loop with
a false verdict, mail_processor.py:386-389), sanitize, search a unique remote
name (an `IndexError` from the probe is caught by the same handler; `none`
models the unbounded probe loop never returning), then the size check — an
oversized attachment is skipped with `continue` (mail_processor.py:375-380) —
and finally the upload, whose failure breaks with a false verdict
(mail_processor.py:382-385). -/
def attLoop (env : PEnv) : List Attachment → List String → List LogEntry → Option MsgResult
  | [], att, lg => some ⟨true, att, lg⟩
  | a :: rest, att, lg =>
    if a.decodeRaises then some ⟨false, att, lg⟩
    else
      match find_unique_filename env.static env.head (sanitize_filename a.name) env.fuel with
      | Except.error _ => some ⟨false, att, lg⟩
      | Except.ok none => none
      | Except.ok (some fn) =>
        if a.size > env.maxSize then attLoop env rest att lg
        else
          let u := upload_to_webdav env.db env.static env.defaultName env.putOk fn a.size
          if u.ok then attLoop env rest (att ++ [fn]) (lg ++ u.logs)
          else some ⟨false, att ++ [fn], lg ++ u.logs⟩

/-- Embedding of `_process_single_message` (mail_processor.py:337-390): a
message without attachments is immediately successful (mail_processor.py:
344-346), otherwise the attachment loop decides. -/
def process_single_message (env : PEnv) (atts : List Attachment) : Option MsgResult :=
  if atts.isEmpty then some ⟨true, [], []⟩
  else attLoop env atts [] []

/-- Classification of what happens to one attachment, derived from the same
sub-functions the loop calls. -/
inductive AttOutcome where
  | exn
  | hang
  | oversize
  | uploadOk
  | uploadFail
deriving DecidableEq

/-- The unique remote name resolved for attachment `a`, as computed inside
the loop. -/
def attFinalName (env : PEnv) (a : Attachment) : Except PyErr (Option String) :=
  find_unique_filename env.static env.head (sanitize_filename a.name) env.fuel

/-- The resolved name, defaulted, for stating which uploads happen. -/
def attNameD (env : PEnv) (a : Attachment) : String :=
  match attFinalName env a with
  | Except.ok (some fn) => fn
  | _ => ""

/-- Log rows the upload of attachment `a` would append. -/
def attLogs (env : PEnv) (a : Attachment) : List LogEntry :=
  (upload_to_webdav env.db env.static env.defaultName env.putOk (attNameD env a) a.size).logs

/-- Outcome of attachment `a` under environment `env`, mirroring the loop
body step by step. -/
def attOutcome (env : PEnv) (a : Attachment) : AttOutcome :=
  if a.decodeRaises then AttOutcome.exn
  else
    match attFinalName env a with
    | Except.error _ => AttOutcome.exn
    | Except.ok none => AttOutcome.hang
    | Except.ok (some fn) =>
      if a.size > env.maxSize then AttOutcome.oversize
      else if (upload_to_webdav env.db env.static env.defaultName env.putOk fn a.size).ok then
        AttOutcome.uploadOk
      else AttOutcome.uploadFail

/-- The resolved names of exactly those attachments whose upload succeeds. -/
def okNames (env : PEnv) : List Attachment → List String
  | [] => []
  | a :: rest =>
    if attOutcome env a = AttOutcome.uploadOk then attNameD env a :: okNames env rest
    else okNames env rest

/-! ## Orchestrator batch loop (src/mail_processor.py process_emails) -/

/-- Default of the `MAX_EMAILS_PER_RUN` environment variable (config.py:127). -/
def MAX_EMAILS_PER_RUN_default : Nat := 10

/-- Result of the message loop of `process_emails`: messages delegated to
`_process_single_message`, messages deleted, the final `processed_count`, and
the messages left untouched for the next run. -/
structure RunLoopResult (α : Type) where
  delegated : List α
  deleted : List α
  processedCount : Nat
  remaining : List α
deriving DecidableEq

/-- Embedding of the `for uid, message in unread_messages` loop
(mail_processor.py:429-453): before each message, break once
`processed_count >= MAX_EMAILS_PER_RUN`; delegate to the per-message
processor; on a true verdict delete the message and increment
`processed_count`, on a false verdict leave it and keep the counter. -/
def emailLoop {α : Type} (maxRun : Nat) (verdict : α → Bool) :
    List α → Nat → RunLoopResult α
  | [], cnt => ⟨[], [], cnt, []⟩
  | m :: rest, cnt =>
    if maxRun ≤ cnt then ⟨[], [], cnt, m :: rest⟩
    else if verdict m then
      let r := emailLoop maxRun verdict rest (cnt + 1)
      ⟨m :: r.delegated, m :: r.deleted, r.processedCount, r.remaining⟩
    else
      let r := emailLoop maxRun verdict rest cnt
      ⟨m :: r.delegated, r.deleted, r.processedCount, r.remaining⟩

/-! ## Orchestrator action trace (src/mail_processor.py process_emails) -/

/-- The lock name used by `process_emails` (mail_processor.py:397). -/
def LOCK_NAME : String := "process_emails_lock"

/-- Externally visible actions of one `process_emails` invocation. -/
inductive OrcAction where
  | acquire (name : String) (ok : Bool)
  | delegate
  | deleteMsg
  | release (name : String)
deriving DecidableEq

/-- Environment of one invocation: whether `acquire_lock` succeeds, whether
`validate_config` passes, whether the IMAP connection succeeds, the verdict
of each matched unread message in mailbox order, and an optional point at
which an unhandled exception cuts the body short. -/
structure OrcEnv where
  lockFree : Bool
  configValid : Bool
  connectOk : Bool
  listing : List Bool
  exnAfter : Option Nat

/-- Delegate/delete actions of the message loop (mail_processor.py:429-453). -/
def loopActions (maxRun : Nat) : Nat → List Bool → List OrcAction
  | _, [] => []
  | cnt, v :: rest =>
    if maxRun ≤ cnt then []
    else if v then OrcAction.delegate :: OrcAction.deleteMsg :: loopActions maxRun (cnt + 1) rest
    else OrcAction.delegate :: loopActions maxRun cnt rest

/-- Actions of the `try` body of `process_emails` when no exception occurs:
an invalid config returns early (mail_processor.py:409-410), a failed
connection raises (caught), an empty listing returns early
(mail_processor.py:423-425), otherwise the message loop runs. -/
def orc_body (maxRun : Nat) (env : OrcEnv) : List OrcAction :=
  if !env.configValid then []
  else if !env.connectOk then []
  else if env.listing.isEmpty then []
  else loopActions maxRun 0 env.listing

/-- Actions of the `try` body including exception paths: an unhandled
exception after `k` actions truncates the body there; both `except` clauses
(mail_processor.py:456-459) catch it, and the `finally` clause still runs. -/
def orc_body_trace (maxRun : Nat) (env : OrcEnv) : List OrcAction :=
  match env.exnAfter with
  | none => orc_body maxRun env
  | some k => (orc_body maxRun env).take k

/-- Embedding of the control flow of `process_emails`
(mail_processor.py:393-463): a failed acquisition skips the run entirely
(mail_processor.py:402-405); otherwise the body runs inside
`try/except/finally`, and by Python semantics the `finally` clause — which
calls `release_lock(LOCK_NAME)` (mail_processor.py:460-461) — executes on
every exit path: normal completion, the two early `return`s, both `except`
branches, and even an exception escaping an `except` branch. -/
def process_emails_trace (maxRun : Nat) (env : OrcEnv) : List OrcAction :=
  if env.lockFree then
    OrcAction.acquire LOCK_NAME true ::
      (orc_body_trace maxRun env ++ [OrcAction.release LOCK_NAME])
  else [OrcAction.acquire LOCK_NAME false]

/-! ## Lock manager (src/database.py) -/

/-- One row of the `app_locks` table (database.py:353-358). -/
structure LockRow where
  is_locked : Bool
  locked_at : Option Nat
deriving DecidableEq

/-- Embedding of `acquire_lock` (database.py:490-579) over one lock row.
`dbOk` is whether `get_db_connection()` yields a connection; `row` is the
current row for the name, `none` if absent (the `INSERT IGNORE` then creates
an unlocked row, database.py:508); `now` and timestamps are in seconds.
Inside the transaction: a held lock whose `locked_at` is strictly older than
`timeout_minutes * 60` seconds, or whose `locked_at` is null, is force-
cleared (database.py:525-550); if the lock is then free it is taken with
`locked_at = now` and the function returns true, else it rolls back and
returns false. -/
def acquire_lock (dbOk : Bool) (row : Option LockRow) (now : Nat)
    (timeout_minutes : Nat) : Bool × Option LockRow :=
  if !dbOk then (false, row)
  else
    let r0 := row.getD ⟨false, none⟩
    let r1 :=
      if r0.is_locked then
        match r0.locked_at with
        | some t =>
          if now - t > timeout_minutes * 60 then (⟨false, none⟩ : LockRow) else r0
        | none => ⟨false, none⟩
      else r0
    if r1.is_locked then (false, some r0)
    else (true, some ⟨true, some now⟩)

/-- Embedding of `release_lock` (database.py:582-600): unconditionally clear
the row if it exists; a missing row or connection makes it a no-op. -/
def release_lock (dbOk : Bool) (row : Option LockRow) : Option LockRow :=
  if !dbOk then row
  else
    match row with
    | none => none
    | some _ => some ⟨false, none⟩

/-! ## Helper lemmas about the batch loop -/

theorem emailLoop_count_aux {α : Type} (maxRun : Nat) (v : α → Bool) :
    ∀ (msgs : List α) (cnt : Nat),
      (emailLoop maxRun v msgs cnt).processedCount =
        cnt + (emailLoop maxRun v msgs cnt).deleted.length := by
  intro msgs
  induction msgs with
  | nil => intro cnt; simp [emailLoop]
  | cons m rest ih =>
    intro cnt
    by_cases h : maxRun ≤ cnt
    · simp [emailLoop, h]
    · by_cases hv : v m
      · simp [emailLoop, h, hv, ih (cnt + 1)]; omega
      · simp [emailLoop, h, hv, ih cnt]

theorem emailLoop_le_aux {α : Type} (maxRun : Nat) (v : α → Bool) :
    ∀ (msgs : List α) (cnt : Nat), cnt ≤ maxRun →
      (emailLoop maxRun v msgs cnt).processedCount ≤ maxRun := by
  intro msgs
  induction msgs with
  | nil => intro cnt hc; simpa [emailLoop] using hc
  | cons m rest ih =>
    intro cnt hc
    by_cases h : maxRun ≤ cnt
    · simpa [emailLoop, h] using hc
    · by_cases hv : v m
      · simpa [emailLoop, h, hv] using ih (cnt + 1) (by omega)
      · simpa [emailLoop, h, hv] using ih cnt hc

theorem emailLoop_split_aux {α : Type} (maxRun : Nat) (v : α → Bool) :
    ∀ (msgs : List α) (cnt : Nat),
      (emailLoop maxRun v msgs cnt).delegated ++ (emailLoop maxRun v msgs cnt).remaining = msgs := by
  intro msgs
  induction msgs with
  | nil => intro cnt; simp [emailLoop]
  | cons m rest ih =>
    intro cnt
    by_cases h : maxRun ≤ cnt
    · simp [emailLoop, h]
    · by_cases hv : v m
      · simp [emailLoop, h, hv, ih (cnt + 1)]
      · simp [emailLoop, h, hv, ih cnt]

/-! ## Claim C1 -/

/-- Claim C1, counterexample: with `MAX_EMAILS_PER_RUN` at its default of 10
and eleven matched messages whose processing all fails, all eleven messages
are delegated to the per-message processor in one invocation — the loop
guard compares `processed_count`, which is incremented only after a
successful deletion (mail_processor.py:446-449), so failed messages do not
count toward the batch limit. -/
theorem emailLoop_delegation_exceeds_limit :
    MAX_EMAILS_PER_RUN_default <
      (emailLoop MAX_EMAILS_PER_RUN_default (fun _ : Nat => false)
        (List.range 11) 0).delegated.length := by decide

/-- Claim C1, amended: in every invocation at most `MAX_EMAILS_PER_RUN`
messages are successfully processed (deleted); the delegated messages form a
contiguous leading segment of the mailbox order and all remaining messages
are left untouched for the next run.  The per-run bound counts only
successes, not delegations. -/
theorem emailLoop_success_bound {α : Type} (maxRun : Nat) (v : α → Bool) (msgs : List α) :
    (emailLoop maxRun v msgs 0).deleted.length ≤ maxRun ∧
    (emailLoop maxRun v msgs 0).delegated ++ (emailLoop maxRun v msgs 0).remaining = msgs := by
  constructor
  · have h1 := emailLoop_count_aux maxRun v msgs 0
    have h2 := emailLoop_le_aux maxRun v msgs 0 (Nat.zero_le _)
    omega
  · exact emailLoop_split_aux maxRun v msgs 0

/-! ## Claim C2 -/

theorem loopActions_mem_aux (maxRun : Nat) :
    ∀ (vs : List Bool) (cnt : Nat) (a : OrcAction), a ∈ loopActions maxRun cnt vs →
      a = OrcAction.delegate ∨ a = OrcAction.deleteMsg := by
  intro vs
  induction vs with
  | nil => intro cnt a h; simp [loopActions] at h
  | cons v rest ih =>
    intro cnt a h
    by_cases hle : maxRun ≤ cnt
    · simp [loopActions, hle] at h
    · by_cases hv : v
      · simp [loopActions, hle, hv] at h
        rcases h with h | h | h
        · exact Or.inl h
        · exact Or.inr h
        · exact ih (cnt + 1) a h
      · simp [loopActions, hle, hv] at h
        rcases h with h | h
        · exact Or.inl h
        · exact ih cnt a h

theorem release_not_mem_body (maxRun : Nat) (env : OrcEnv) (nm : String) :
    OrcAction.release nm ∉ orc_body_trace maxRun env := by
  intro hmem
  have hsub : OrcAction.release nm ∈ orc_body maxRun env := by
    unfold orc_body_trace at hmem
    cases h : env.exnAfter with
    | none => rw [h] at hmem; exact hmem
    | some k => rw [h] at hmem; exact List.take_subset k _ hmem
  unfold orc_body at hsub
  split at hsub
  · simp at hsub
  · split at hsub
    · simp at hsub
    · split at hsub
      · simp at hsub
      · rcases loopActions_mem_aux maxRun env.listing 0 _ hsub with h | h <;> simp at h

/-- Claim C2: whenever `acquire_lock` returns true at the start of
`process_emails`, the invocation performs exactly one `release_lock` on the
same lock name, and it is the final action before returning — on every exit
path: normal completion, empty message list, failed config validation,
connection error, and an unhandled exception cutting the body anywhere
(modelled by `exnAfter`).  This is Python `try/finally` semantics
(mail_processor.py:407-463). -/
theorem process_emails_releases_lock (maxRun : Nat) (env : OrcEnv)
    (h : env.lockFree = true) :
    (process_emails_trace maxRun env).count (OrcAction.release LOCK_NAME) = 1 ∧
    (process_emails_trace maxRun env).getLast? = some (OrcAction.release LOCK_NAME) := by
  constructor
  · simp only [process_emails_trace, h, if_true]
    rw [List.count_cons, List.count_append]
    have h0 : (orc_body_trace maxRun env).count (OrcAction.release LOCK_NAME) = 0 :=
      List.count_eq_zero.mpr (release_not_mem_body maxRun env LOCK_NAME)
    simp [h0]
  · simp only [process_emails_trace, h, if_true]
    rw [← List.cons_append]
    exact List.getLast?_concat _

/-- Witness for C2 at a concrete run: lock acquired, two messages, the
second failing. -/
theorem process_emails_releases_lock_witness :
    (process_emails_trace 10 ⟨true, true, true, [true, false], none⟩).count
        (OrcAction.release LOCK_NAME) = 1 ∧
    (process_emails_trace 10 ⟨true, true, true, [true, false], none⟩).getLast? =
        some (OrcAction.release LOCK_NAME) :=
  process_emails_releases_lock 10 ⟨true, true, true, [true, false], none⟩ rfl

/-! ## Claim C3 -/

/-- Claim C3: if the lock row is held (`is_locked = true`) with a non-null
`locked_at` strictly older than the timeout, `acquire_lock` force-clears the
stale lock, re-takes it in the same transaction with `locked_at = now`, and
returns true (database.py:525-562). -/
theorem acquire_lock_timeout_override (t now timeout_minutes : Nat)
    (h : t + timeout_minutes * 60 < now) :
    acquire_lock true (some ⟨true, some t⟩) now timeout_minutes =
      (true, some ⟨true, some now⟩) := by
  have hgt : now - t > timeout_minutes * 60 := by omega
  simp [acquire_lock, hgt]

/-- Witness for C3: a lock taken at second 0 with a 30-minute timeout is
stolen at second 1801. -/
theorem acquire_lock_timeout_override_witness :
    acquire_lock true (some ⟨true, some 0⟩) 1801 30 = (true, some ⟨true, some 1801⟩) :=
  acquire_lock_timeout_override 0 1801 30 (by decide)

/-! ## Claim C4 -/

theorem selectFrom_isSome (s : ServerRow) (rest : List ServerRow)
    (w : List SelWarning) (dn : Option String) :
    ∃ t, (selectFrom (s :: rest) w dn).1 = some t := by
  unfold selectFrom
  cases h : find_default (s :: rest) dn with
  | some x => exact ⟨x, by simp⟩
  | none => exact ⟨s, by simp⟩

theorem select_target_none_iff (db static : List ServerRow) (dn : Option String) :
    (select_target db static dn).1 = none ↔ (db = [] ∧ static = []) := by
  cases db with
  | nil =>
    cases static with
    | nil => simp [select_target]
    | cons s rest =>
      obtain ⟨t, ht⟩ := selectFrom_isSome s rest [SelWarning.fallbackToStatic] dn
      simp [select_target, ht]
  | cons d rest =>
    obtain ⟨t, ht⟩ := selectFrom_isSome d rest [] dn
    simp [select_target, ht]

/-- Claim C4, counterexample: when neither the database nor the static
configuration holds any server, `upload_to_webdav` returns Failed without
appending any `upload_logs` row at all (mail_processor.py:179-182 returns
before any `log_upload` call), refuting "appends exactly one UploadLogEntry
row ... or null when resolution failed". -/
theorem upload_without_target_appends_no_log :
    upload_to_webdav [] [] none (fun _ => true) "f.txt" 1 = ⟨false, [], []⟩ ∧
    (upload_to_webdav [] [] none (fun _ => true) "f.txt" 1).logs.length ≠ 1 := by
  constructor <;> decide

/-- Claim C4, amended: target resolution fails exactly when both server
lists are empty, in which case the upload returns Failed with no log row and
no transfer; in every other invocation exactly one `upload_logs` row is
appended, carrying the resolved target's name (never null) and a status
matching the PUT outcome. -/
theorem upload_to_webdav_log_discipline (db static : List ServerRow) (dn : Option String)
    (putOk : String → Bool) (fn : String) (size : Nat) :
    ((select_target db static dn).1 = none ↔ (db = [] ∧ static = [])) ∧
    (db = [] → static = [] →
       upload_to_webdav db static dn putOk fn size = ⟨false, [], []⟩) ∧
    (∀ t, (select_target db static dn).1 = some t →
       (upload_to_webdav db static dn putOk fn size).logs =
         [⟨fn, size,
            if putOk (buildUrl t.url fn) then UploadStatus.success else UploadStatus.failed,
            some t.name⟩]) := by
  refine ⟨select_target_none_iff db static dn, ?_, ?_⟩
  · intro h1 h2
    subst h1; subst h2
    simp [upload_to_webdav, select_target]
  · intro t ht
    unfold upload_to_webdav
    rw [ht]
    by_cases hp : putOk (buildUrl t.url fn) <;> simp [hp]

/-- Witness for C4 (amended) at a concrete failed upload to a static
fallback server. -/
theorem upload_to_webdav_log_discipline_witness :
    (upload_to_webdav [] [⟨1, "A", "http://a", "u", "p", true, 0⟩] none
        (fun _ => false) "f.txt" 7).logs =
      [⟨"f.txt", 7, UploadStatus.failed, some "A"⟩] := by
  have h := (upload_to_webdav_log_discipline [] [⟨1, "A", "http://a", "u", "p", true, 0⟩]
    none (fun _ => false) "f.txt" 7).2.2 ⟨1, "A", "http://a", "u", "p", true, 0⟩ (by decide)
  simpa using h

/-! ## Claim C7 -/

/-- Claim C7, counterexample: the algorithm the claim itself states (strip
`..`, then replace each forbidden character by `_`) sends
`"../../etc/passwd"` to `"__etc_passwd"` — the two slashes survive the `..`
stripping and become underscores — not to `"etcpasswd"`. -/
theorem sanitize_traversal_example_cex :
    sanitize_filename "../../etc/passwd" ≠ "etcpasswd" := by decide

/-- Claim C7, amended: `sanitize_filename` maps `"../../etc/passwd"` to
`"__etc_passwd"` and `"a:b/c*d"` to `"a_b_c_d"` (strip every `..` substring,
then replace each of the characters in the forbidden class by `_`). -/
theorem sanitize_filename_examples :
    sanitize_filename "../../etc/passwd" = "__etc_passwd" ∧
    sanitize_filename "a:b/c*d" = "a_b_c_d" := by
  constructor <;> decide

/-! ## Claim C10 -/

/-- Claim C10: `webdav_file_exists` reports an existing remote file exactly
when the HEAD probe yields HTTP status 200; any other status and any
transport error yield "does not exist", and on "does not exist" for the
original candidate `find_unique_filename` returns that candidate unchanged. -/
theorem webdav_file_exists_iff_200 (s : ServerRow) (rest : List ServerRow)
    (head : String → HeadResult) (fn : String) (fuel : Nat) :
    (webdav_file_exists (s :: rest) head fn = Except.ok true ↔
       head (buildUrl s.url fn) = HeadResult.status 200) ∧
    (∀ c, head (buildUrl s.url fn) = HeadResult.status c → c ≠ 200 →
       webdav_file_exists (s :: rest) head fn = Except.ok false) ∧
    (head (buildUrl s.url fn) = HeadResult.transportError →
       webdav_file_exists (s :: rest) head fn = Except.ok false) ∧
    (webdav_file_exists (s :: rest) head fn = Except.ok false →
       find_unique_filename (s :: rest) head fn fuel = Except.ok (some fn)) := by
  refine ⟨?_, ?_, ?_, ?_⟩
  · cases hh : head (buildUrl s.url fn) with
    | status c => simp [webdav_file_exists, hh]
    | transportError => simp [webdav_file_exists, hh]
  · intro c hc hne
    simp [webdav_file_exists, hc, hne]
  · intro hh
    simp [webdav_file_exists, hh]
  · intro h
    unfold find_unique_filename
    rw [h]

/-- Witness for C10: a 404 probe is "does not exist" and the candidate name
is used as-is. -/
theorem webdav_file_exists_iff_200_witness :
    webdav_file_exists [⟨1, "A", "http://a", "u", "p", true, 0⟩]
        (fun _ => HeadResult.status 404) "a.txt" = Except.ok false ∧
    find_unique_filename [⟨1, "A", "http://a", "u", "p", true, 0⟩]
        (fun _ => HeadResult.status 404) "a.txt" 3 = Except.ok (some "a.txt") := by
  have h1 := (webdav_file_exists_iff_200 ⟨1, "A", "http://a", "u", "p", true, 0⟩ []
    (fun _ => HeadResult.status 404) "a.txt" 3).2.1 404 rfl (by decide)
  have h2 := (webdav_file_exists_iff_200 ⟨1, "A", "http://a", "u", "p", true, 0⟩ []
    (fun _ => HeadResult.status 404) "a.txt" 3).2.2.2 h1
  exact ⟨h1, h2⟩

/-! ## Claim C5 -/

theorem find_default_empty (dn : Option String) : find_default [] dn = none := by
  unfold find_default
  cases dn with
  | none => rfl
  | some n => by_cases h : n = "" <;> simp [h]

theorem find_default_name (servers : List ServerRow) (dn : Option String) (s : ServerRow)
    (h : find_default servers dn = some s) : ∀ n, dn = some n → s.name = n := by
  intro n hn
  subst hn
  unfold find_default at h
  by_cases he : n = ""
  · simp [he] at h
  · simp only [he, if_false] at h
    have := List.find?_some h
    simpa using this

theorem find_default_mem (servers : List ServerRow) (dn : Option String) (x : ServerRow)
    (h : find_default servers dn = some x) : x ∈ servers := by
  unfold find_default at h
  cases dn with
  | none => simp at h
  | some n =>
    by_cases he : n = ""
    · simp [he] at h
    · simp only [he, if_false] at h
      exact List.mem_of_find?_eq_some h

theorem serverLE_trans (a b c : ServerRow) (hab : serverLE a b = true)
    (hbc : serverLE b c = true) : serverLE a c = true := by
  simp only [serverLE, decide_eq_true_eq] at *
  rcases hab with h1 | ⟨h1, h2⟩ <;> rcases hbc with h3 | ⟨h3, h4⟩ <;> omega

theorem serverLE_total (a b : ServerRow) : serverLE a b = true ∨ serverLE b a = true := by
  simp only [serverLE, decide_eq_true_eq]
  omega

/-- Claim C5: target selection follows the three-step algorithm.  With
`persisted` the (priority asc, id asc)-ordered enabled rows from
`get_enabled_servers`: (1) a persisted server matching the persisted default
name is selected when the search finds one; (2) otherwise, when persisted
targets exist, the first of them is selected and a no-default-matched warning
is emitted; (3) when no persisted target exists, selection falls back to the
static list with a warning, and when that is empty too the upload fails hard
with no log row and no PUT.  The last two conjuncts pin down the order and
content of `get_enabled_servers`. -/
theorem select_target_three_step (table static : List ServerRow) (dn : Option String) :
    (∀ s, find_default (get_enabled_servers table) dn = some s →
        (select_target (get_enabled_servers table) static dn).1 = some s ∧
        (∀ n, dn = some n → s.name = n)) ∧
    (get_enabled_servers table ≠ [] → find_default (get_enabled_servers table) dn = none →
        (select_target (get_enabled_servers table) static dn).1 =
          (get_enabled_servers table).head? ∧
        SelWarning.noDefaultMatched ∈ (select_target (get_enabled_servers table) static dn).2) ∧
    (get_enabled_servers table = [] →
        (static = [] →
           (select_target (get_enabled_servers table) static dn).1 = none ∧
           (∀ putOk fn size,
             upload_to_webdav (get_enabled_servers table) static dn putOk fn size =
               ⟨false, [], []⟩)) ∧
        (static ≠ [] → ∃ t,
           (select_target (get_enabled_servers table) static dn).1 = some t ∧ t ∈ static ∧
           SelWarning.fallbackToStatic ∈ (select_target (get_enabled_servers table) static dn).2)) ∧
    List.Sorted (fun a b => serverLE a b = true) (get_enabled_servers table) ∧
    (∀ s ∈ get_enabled_servers table, s.enabled = true) := by
  refine ⟨?_, ?_, ?_, ?_, ?_⟩
  · intro s h
    cases hE : get_enabled_servers table with
    | nil =>
      rw [hE, find_default_empty] at h
      exact absurd h (by simp)
    | cons d rest =>
      rw [hE] at h
      constructor
      · simp [select_target, selectFrom, h]
      · exact find_default_name _ dn s h
  · intro hne h
    cases hE : get_enabled_servers table with
    | nil => exact absurd hE hne
    | cons d rest =>
      rw [hE] at h
      constructor
      · simp [select_target, selectFrom, h]
      · simp [select_target, selectFrom, h]
  · intro hE
    rw [hE]
    constructor
    · intro hs
      subst hs
      exact ⟨by simp [select_target], fun putOk fn size => by
        simp [upload_to_webdav, select_target]⟩
    · intro hs
      cases static with
      | nil => exact absurd rfl hs
      | cons s rest =>
        cases h : find_default (s :: rest) dn with
        | some x =>
          exact ⟨x, by simp [select_target, selectFrom, h], find_default_mem _ dn x h,
            by simp [select_target, selectFrom, h]⟩
        | none =>
          exact ⟨s, by simp [select_target, selectFrom, h], by simp,
            by simp [select_target, selectFrom, h]⟩
  · haveI : IsTotal ServerRow (fun a b => serverLE a b = true) := ⟨serverLE_total⟩
    haveI : IsTrans ServerRow (fun a b => serverLE a b = true) :=
      ⟨fun a b c => serverLE_trans a b c⟩
    exact List.sorted_insertionSort _ _
  · intro s hs
    have hmem : s ∈ (table.filter (fun s => s.enabled)) :=
      (List.perm_insertionSort _ _).subset hs
    exact (List.mem_filter.mp hmem).2

/-- Witness for C5: with a two-row table sorted into priority order, the
persisted default name picks the matching row. -/
theorem select_target_three_step_witness :
    (select_target (get_enabled_servers
        [⟨2, "B", "http://b", "u", "p", true, 1⟩, ⟨1, "A", "http://a", "u", "p", true, 0⟩])
      [] (some "B")).1 = some ⟨2, "B", "http://b", "u", "p", true, 1⟩ ∧
    (⟨2, "B", "http://b", "u", "p", true, 1⟩ : ServerRow).name = "B" := by
  have h := (select_target_three_step
    [⟨2, "B", "http://b", "u", "p", true, 1⟩, ⟨1, "A", "http://a", "u", "p", true, 0⟩]
    [] (some "B")).1 ⟨2, "B", "http://b", "u", "p", true, 1⟩ (by decide)
  exact ⟨h.1, h.2 "B" rfl⟩

/-! ## Attachment-loop lemmas for C6, C8, C9 -/

theorem process_eq_attLoop (env : PEnv) (atts : List Attachment) :
    process_single_message env atts = attLoop env atts [] [] := by
  cases atts with
  | nil => simp [process_single_message, attLoop]
  | cons a rest => simp [process_single_message]

/-- One step of the attachment loop, phrased through the outcome
classification `attOutcome`. -/
theorem attLoop_cons (env : PEnv) (a : Attachment) (rest : List Attachment)
    (att : List String) (lg : List LogEntry) :
    attLoop env (a :: rest) att lg =
      match attOutcome env a with
      | AttOutcome.exn => some ⟨false, att, lg⟩
      | AttOutcome.hang => none
      | AttOutcome.oversize => attLoop env rest att lg
      | AttOutcome.uploadOk =>
          attLoop env rest (att ++ [attNameD env a]) (lg ++ attLogs env a)
      | AttOutcome.uploadFail =>
          some ⟨false, att ++ [attNameD env a], lg ++ attLogs env a⟩ := by
  have hfu : find_unique_filename env.static env.head (sanitize_filename a.name) env.fuel =
      attFinalName env a := rfl
  by_cases hd : a.decodeRaises
  · simp [attLoop, attOutcome, hd]
  · cases hfn : attFinalName env a with
    | error e => simp [attLoop, attOutcome, hd, hfu, hfn]
    | ok o =>
      cases o with
      | none => simp [attLoop, attOutcome, hd, hfu, hfn]
      | some fn =>
        by_cases hsz : a.size > env.maxSize
        · simp [attLoop, attOutcome, hd, hfu, hfn, hsz]
        · by_cases hup :
              (upload_to_webdav env.db env.static env.defaultName env.putOk fn a.size).ok
          · simp [attLoop, attOutcome, attNameD, attLogs, hd, hfu, hfn, hsz, hup]
          · simp [attLoop, attOutcome, attNameD, attLogs, hd, hfu, hfn, hsz, hup]

theorem attLoop_fail_fast_aux (env : PEnv) (a : Attachment) (post : List Attachment)
    (h2 : attOutcome env a = AttOutcome.exn ∨ attOutcome env a = AttOutcome.uploadFail) :
    ∀ (pre : List Attachment),
      (∀ b ∈ pre, attOutcome env b = AttOutcome.oversize ∨
          attOutcome env b = AttOutcome.uploadOk) →
      ∀ (att : List String) (lg : List LogEntry),
      ∃ r r0, attLoop env pre att lg = some r0 ∧ r0.verdict = true ∧
        attLoop env (pre ++ a :: post) att lg = some r ∧
        attLoop env (pre ++ [a]) att lg = some r ∧
        r.verdict = false ∧
        ∃ tail, r.uploadsAttempted = r0.uploadsAttempted ++ tail := by
  intro pre
  induction pre with
  | nil =>
    intro _ att lg
    rcases h2 with h2 | h2
    · exact ⟨⟨false, att, lg⟩, ⟨true, att, lg⟩, by simp [attLoop], rfl,
        by rw [List.nil_append, attLoop_cons, h2],
        by rw [List.nil_append, attLoop_cons, h2], rfl, [], by simp⟩
    · exact ⟨⟨false, att ++ [attNameD env a], lg ++ attLogs env a⟩, ⟨true, att, lg⟩,
        by simp [attLoop], rfl,
        by rw [List.nil_append, attLoop_cons, h2],
        by rw [List.nil_append, attLoop_cons, h2], rfl, [attNameD env a], by simp⟩
  | cons b pre' ih =>
    intro h1 att lg
    rcases h1 b (by simp) with hb | hb
    · obtain ⟨r, r0, g1, g2, g3, g4, g5, g6⟩ :=
        ih (fun x hx => h1 x (by simp [hx])) att lg
      refine ⟨r, r0, ?_, g2, ?_, ?_, g5, g6⟩
      · rw [attLoop_cons, hb]; exact g1
      · rw [List.cons_append, attLoop_cons, hb]; exact g3
      · rw [List.cons_append, attLoop_cons, hb]; exact g4
    · obtain ⟨r, r0, g1, g2, g3, g4, g5, g6⟩ :=
        ih (fun x hx => h1 x (by simp [hx])) (att ++ [attNameD env b]) (lg ++ attLogs env b)
      refine ⟨r, r0, ?_, g2, ?_, ?_, g5, g6⟩
      · rw [attLoop_cons, hb]; exact g1
      · rw [List.cons_append, attLoop_cons, hb]; exact g3
      · rw [List.cons_append, attLoop_cons, hb]; exact g4

/-! ## Claim C6 -/

/-- Claim C6: when every attachment before position `i` is either skipped as
oversized or uploaded successfully, and attachment `i` fails its upload or
raises, the message result is identical whether or not any attachments
follow `i` (nothing after `i` is attempted), the verdict is false (the
message is kept, not deleted), and the uploads attempted for the earlier
attachments are preserved, not rolled back (they stay as a leading segment
of the attempted-upload list). -/
theorem message_fail_fast (env : PEnv) (pre post : List Attachment) (a : Attachment)
    (h1 : ∀ b ∈ pre, attOutcome env b = AttOutcome.oversize ∨
        attOutcome env b = AttOutcome.uploadOk)
    (h2 : attOutcome env a = AttOutcome.exn ∨ attOutcome env a = AttOutcome.uploadFail) :
    ∃ r r0, process_single_message env pre = some r0 ∧ r0.verdict = true ∧
      process_single_message env (pre ++ a :: post) = some r ∧
      process_single_message env (pre ++ [a]) = some r ∧
      r.verdict = false ∧
      ∃ tail, r.uploadsAttempted = r0.uploadsAttempted ++ tail := by
  obtain ⟨r, r0, g1, g2, g3, g4, g5, g6⟩ := attLoop_fail_fast_aux env a post h2 pre h1 [] []
  refine ⟨r, r0, ?_, g2, ?_, ?_, g5, g6⟩
  · rw [process_eq_attLoop]; exact g1
  · rw [process_eq_attLoop]; exact g3
  · rw [process_eq_attLoop]; exact g4

/-- Witness for C6: a three-attachment message whose second attachment's PUT
fails; the result ignores the third attachment, keeps the first upload, and
reports failure. -/
theorem message_fail_fast_witness :
    ∃ r r0,
      process_single_message
        ⟨[⟨1, "A", "http://a", "u", "p", true, 0⟩], [], none,
          fun _ => HeadResult.transportError, fun u => u == "http://a/ok.txt", 100, 5⟩
        [⟨false, "ok.txt", 1⟩] = some r0 ∧ r0.verdict = true ∧
      process_single_message
        ⟨[⟨1, "A", "http://a", "u", "p", true, 0⟩], [], none,
          fun _ => HeadResult.transportError, fun u => u == "http://a/ok.txt", 100, 5⟩
        ([⟨false, "ok.txt", 1⟩] ++ ⟨false, "bad.txt", 1⟩ :: [⟨false, "z.txt", 1⟩]) = some r ∧
      process_single_message
        ⟨[⟨1, "A", "http://a", "u", "p", true, 0⟩], [], none,
          fun _ => HeadResult.transportError, fun u => u == "http://a/ok.txt", 100, 5⟩
        ([⟨false, "ok.txt", 1⟩] ++ [⟨false, "bad.txt", 1⟩]) = some r ∧
      r.verdict = false ∧
      ∃ tail, r.uploadsAttempted = r0.uploadsAttempted ++ tail :=
  message_fail_fast
    ⟨[⟨1, "A", "http://a", "u", "p", true, 0⟩], [], none,
      fun _ => HeadResult.transportError, fun u => u == "http://a/ok.txt", 100, 5⟩
    [⟨false, "ok.txt", 1⟩] [⟨false, "z.txt", 1⟩] ⟨false, "bad.txt", 1⟩
    (by decide) (Or.inr (by decide))

/-! ## Claim C8 -/

theorem attLoop_all_ok_aux (env : PEnv) :
    ∀ (atts : List Attachment),
      (∀ b ∈ atts, attOutcome env b = AttOutcome.oversize ∨
          attOutcome env b = AttOutcome.uploadOk) →
      ∀ (att : List String) (lg : List LogEntry),
      ∃ lg2, attLoop env atts att lg = some ⟨true, att ++ okNames env atts, lg2⟩ := by
  intro atts
  induction atts with
  | nil => intro _ att lg; exact ⟨lg, by simp [attLoop, okNames]⟩
  | cons b rest ih =>
    intro h att lg
    rcases h b (by simp) with hb | hb
    · obtain ⟨lg2, hl⟩ := ih (fun x hx => h x (by simp [hx])) att lg
      refine ⟨lg2, ?_⟩
      rw [attLoop_cons, hb, hl]
      have hok : okNames env (b :: rest) = okNames env rest := by
        simp [okNames, hb]
      rw [hok]
    · obtain ⟨lg2, hl⟩ :=
        ih (fun x hx => h x (by simp [hx])) (att ++ [attNameD env b]) (lg ++ attLogs env b)
      refine ⟨lg2, ?_⟩
      rw [attLoop_cons, hb, hl]
      have hok : okNames env (b :: rest) = attNameD env b :: okNames env rest := by
        simp [okNames, hb]
      rw [hok]
      simp

/-- Claim C8: an attachment whose measured size exceeds the configured
maximum is never classified as an upload (so the uploader is never invoked
for it and no failure is recorded), and when every other attachment uploads
successfully the whole message still gets a true verdict — eligible for
deletion — with the attempted uploads being exactly the successful ones. -/
theorem oversize_skipped (env : PEnv) (atts : List Attachment)
    (h : ∀ b ∈ atts, attOutcome env b = AttOutcome.oversize ∨
        attOutcome env b = AttOutcome.uploadOk) :
    (∀ a : Attachment, a.size > env.maxSize →
       attOutcome env a ≠ AttOutcome.uploadOk ∧ attOutcome env a ≠ AttOutcome.uploadFail) ∧
    (∃ r, process_single_message env atts = some r ∧ r.verdict = true ∧
       r.uploadsAttempted = okNames env atts) := by
  constructor
  · intro a hsz
    unfold attOutcome
    by_cases hd : a.decodeRaises
    · simp [hd]
    · simp only [hd, if_false, Bool.false_eq_true]
      cases hfn : attFinalName env a with
      | error e => simp
      | ok o =>
        cases o with
        | none => simp
        | some fn => simp [hsz]
  · obtain ⟨lg2, hl⟩ := attLoop_all_ok_aux env atts h [] []
    refine ⟨⟨true, okNames env atts, lg2⟩, ?_, rfl, rfl⟩
    rw [process_eq_attLoop, hl]
    simp

/-- Witness for C8: a two-attachment message whose first attachment is
oversized and whose second uploads fine. -/
theorem oversize_skipped_witness :
    (∀ a : Attachment, a.size > 100 →
       attOutcome
         ⟨[⟨1, "A", "http://a", "u", "p", true, 0⟩], [], none,
           fun _ => HeadResult.transportError, fun u => u == "http://a/ok.txt", 100, 5⟩ a ≠
         AttOutcome.uploadOk ∧
       attOutcome
         ⟨[⟨1, "A", "http://a", "u", "p", true, 0⟩], [], none,
           fun _ => HeadResult.transportError, fun u => u == "http://a/ok.txt", 100, 5⟩ a ≠
         AttOutcome.uploadFail) ∧
    (∃ r,
      process_single_message
        ⟨[⟨1, "A", "http://a", "u", "p", true, 0⟩], [], none,
          fun _ => HeadResult.transportError, fun u => u == "http://a/ok.txt", 100, 5⟩
        [⟨false, "big.txt", 200⟩, ⟨false, "ok.txt", 1⟩] = some r ∧
      r.verdict = true ∧
      r.uploadsAttempted =
        okNames
          ⟨[⟨1, "A", "http://a", "u", "p", true, 0⟩], [], none,
            fun _ => HeadResult.transportError, fun u => u == "http://a/ok.txt", 100, 5⟩
          [⟨false, "big.txt", 200⟩, ⟨false, "ok.txt", 1⟩]) :=
  oversize_skipped
    ⟨[⟨1, "A", "http://a", "u", "p", true, 0⟩], [], none,
      fun _ => HeadResult.transportError, fun u => u == "http://a/ok.txt", 100, 5⟩
    [⟨false, "big.txt", 200⟩, ⟨false, "ok.txt", 1⟩] (by decide)

/-! ## Claim C9 -/

theorem attOutcome_exn_of_no_static (env : PEnv) (a : Attachment)
    (hst : env.static = []) : attOutcome env a = AttOutcome.exn := by
  unfold attOutcome attFinalName find_unique_filename webdav_file_exists
  rw [hst]
  by_cases hd : a.decodeRaises <;> simp [hd]

/-- Claim C9: the existence probe of `webdav_file_exists` is aimed at the
first entry of the static environment-configured server list — the function
receives only `config['webdav_servers']` and indexes `[0]`, so the
database-persisted target that `upload_to_webdav` would select never
influences it; with an empty static list the indexing raises, the raised
exception is caught by the per-attachment handler, and
`_process_single_message` returns false for every message that has at least
one attachment. -/
theorem existence_probe_targets_static_head :
    (∀ (s : ServerRow) (rest : List ServerRow) (head : String → HeadResult) (fn : String),
       webdav_file_exists (s :: rest) head fn =
         Except.ok (match head (buildUrl s.url fn) with
                    | HeadResult.status c => c == 200
                    | HeadResult.transportError => false)) ∧
    (∀ (head : String → HeadResult) (fn : String),
       webdav_file_exists [] head fn = Except.error PyErr.indexError) ∧
    (∀ (env : PEnv) (atts : List Attachment), env.static = [] → atts ≠ [] →
       ∃ r, process_single_message env atts = some r ∧ r.verdict = false) := by
  refine ⟨?_, ?_, ?_⟩
  · intro s rest head fn
    cases hh : head (buildUrl s.url fn) with
    | status c => simp [webdav_file_exists, hh]
    | transportError => simp [webdav_file_exists, hh]
  · intro head fn
    rfl
  · intro env atts hst hne
    cases atts with
    | nil => exact absurd rfl hne
    | cons a rest =>
      refine ⟨⟨false, [], []⟩, ?_, rfl⟩
      rw [process_eq_attLoop, attLoop_cons, attOutcome_exn_of_no_static env a hst]

/-- Witness for C9: a message with one attachment under an empty static
server list is reported as failed. -/
theorem existence_probe_targets_static_head_witness :
    ∃ r,
      process_single_message
        ⟨[], [⟨1, "A", "http://a", "u", "p", true, 0⟩], none,
          fun _ => HeadResult.transportError, fun _ => true, 100, 5⟩
        [⟨false, "x.txt", 1⟩] = some r ∧ r.verdict = false :=
  existence_probe_targets_static_head.2.2
    ⟨[], [⟨1, "A", "http://a", "u", "p", true, 0⟩], none,
      fun _ => HeadResult.transportError, fun _ => true, 100, 5⟩
    [⟨false, "x.txt", 1⟩] rfl (by simp)

end MailBridge
